import Mathlib

/-!
Verification of the Knowledge Base Retrieval & Grounding subsystem
(`app/backend/ragtools.py`) against its design specification.

Text is modelled as `List Char` (Python `str`), so slicing, truncation and
stripping become `List.take` / `List.drop` / `List.dropWhile`.  Fallible
Python functions (those that can raise) return `Option`.
-/

namespace RagTools

/-- Whitespace test for a single character, as Python `str.isspace` /
`str.strip` classify the ASCII whitespace characters.  (Python also accepts
some non-ASCII Unicode whitespace; no string handled by this code base
contains any, so the ASCII set is a faithful model here.) -/
def pyIsSpaceChar (ch : Char) : Bool :=
  ch = ' ' || ch = '\t' || ch = '\n' || ch = '\x0b' || ch = '\x0c' || ch = '\r'

/-- Python `str.isspace`: true when the string is non-empty and every
character is whitespace. -/
def pyIsSpace (s : List Char) : Bool :=
  !s.isEmpty && s.all pyIsSpaceChar

/-- Python `str.strip()`: remove leading and trailing whitespace. -/
def pyStrip (s : List Char) : List Char :=
  ((s.dropWhile pyIsSpaceChar).reverse.dropWhile pyIsSpaceChar).reverse

/-- Python `enumerate(l, start)`: pair every element with its index. -/
def enumerateFrom (i : Nat) : List α → List (Nat × α)
  | [] => []
  | a :: l => (i, a) :: enumerateFrom (i + 1) l

/-- The chunk splitter `chunk_text(text, chunk_size)` of `ragtools.py`
(lines 61-63): the list comprehension
`[text[i:i + chunk_size] for i in range(0, len(text), chunk_size)]`.
The comprehension takes successive slices of width `chunk_size` starting at
0, `chunk_size`, `2*chunk_size`, ....  A `chunk_size` of 0 makes Python's
`range` raise `ValueError`; that branch is modelled as `[]` and every
theorem below assumes `0 < chunk_size`, matching the callers. -/
def chunk_text (text : List Char) (chunk_size : Nat) : List (List Char) :=
  if h : text = [] then []
  else if hc : chunk_size = 0 then []
  else text.take chunk_size :: chunk_text (text.drop chunk_size) chunk_size
termination_by text.length
decreasing_by
  simp only [List.length_drop]
  have h1 : 0 < text.length := List.length_pos.mpr h
  omega

/-- Boolean check that every adjacent pair of segments shares exactly `o`
characters at the boundary: the last `o` characters of each segment equal
the first `o` characters of the next one.  This is the "consecutive
segments overlap by `o`" reading of the spec. -/
def adjacentShare (o : Nat) : List (List Char) → Bool
  | a :: b :: rest =>
      (a.drop (a.length - o) == b.take o) && adjacentShare o (b :: rest)
  | _ => true

/-- A LangChain document as this code uses it: the page text plus a
string-to-string metadata mapping.  `add_pdf_documents` overwrites the
metadata with a mapping holding the single key "title". -/
structure Doc where
  page_content : List Char
  metadata : List (String × String)
deriving DecidableEq

/-- Lines 103-104 and 131-132: replace an empty or all-whitespace result
string by the literal sentinel "1". -/
def sentinelIfEmpty (r : List Char) : List Char :=
  if r.isEmpty || pyIsSpace r then "1".data else r

/-- Line 100-102 of `_search_tool`: one formatted search result.  The
content slice `doc.page_content[:2000]` equals `page_content[:2000]`
whether or not the content is longer than 2000, so the conditional on
line 100 is plain truncation. -/
def searchSegment (i : Nat) (content : List Char) : List Char :=
  "[doc_".data ++ (toString i).data ++ "]: Content: ".data ++
    content.take 2000 ++ "\n-----\n".data

/-- Lines 98-102 of `_search_tool`: `result_str` accumulated over
`enumerate(results)`. -/
def searchResultStr (results : List Doc) : List Char :=
  ((enumerateFrom 0 results).map
    (fun p => searchSegment p.1 p.2.page_content)).flatten

/-- Lines 90-106 of `_search_tool`: the payload of the returned
`ToolResult`, with the similarity-search results passed in as the list the
vector store returned for the query. -/
def searchToolPayload (results : List Doc) : List Char :=
  sentinelIfEmpty (searchResultStr results)

/-- Characters accepted by the allow-list character class
`[a-zA-Z0-9_=\-]` on line 110. -/
def allowedChar (ch : Char) : Bool :=
  ('a' ≤ ch && ch ≤ 'z') || ('A' ≤ ch && ch ≤ 'Z') ||
  ('0' ≤ ch && ch ≤ '9') || ch = '_' || ch = '=' || ch = '-'

/-- A non-empty run of allowed characters covering the whole string. -/
def matchesCore (s : List Char) : Bool :=
  !s.isEmpty && s.all allowedChar

/-- Line 110: Python `re.match` of the pattern `^[a-zA-Z0-9_=\-]+$`
against the whole source string.  Python regex semantics: without
`re.MULTILINE`, `$` matches at the end of the string AND just before a
newline at the very end of the string, so the pattern also accepts a
string of allowed characters followed by one trailing newline. -/
def validSource (s : List Char) : Bool :=
  matchesCore s || (s.getLast? == some '\n' && matchesCore s.dropLast)

/-- Line 127-129 of `_report_grounding_tool`: one formatted grounding
result, content truncated to 200 characters. -/
def groundingSegment (content : List Char) : List Char :=
  "[".data ++ content.take 200 ++ "...\n-----\n".data

/-- Lines 109-124 of `_report_grounding_tool`: the page contents collected
by running the vector-store similarity search on every source identifier
surviving the allow-list filter, in input order.  The similarity search is
the external vector store, modelled as a function from query to the
returned documents. -/
def groundingContents (search : List Char → List Doc)
    (sources : List (List Char)) : List (List Char) :=
  ((sources.filter validSource).map
    (fun s => (search s).map Doc.page_content)).flatten

/-- Lines 108-134 of `_report_grounding_tool`: the payload of the returned
`ToolResult` — the formatted result string, the empty-result sentinel, and
the final `result_str.strip()`. -/
def reportGroundingPayload (search : List Char → List Doc)
    (sources : List (List Char)) : List Char :=
  pyStrip (sentinelIfEmpty
    (((groundingContents search sources).map groundingSegment).flatten))

/-- Python str.endswith: the last characters of the string equal the
suffix. -/
def strEndsWith (s suffix : String) : Bool :=
  decide (suffix.data.length ≤ s.data.length) &&
    s.data.drop (s.data.length - suffix.data.length) == suffix.data

/-- Lines 66-82 `add_pdf_documents`: the PDF loader and the LangChain
text splitter are external, so a file is modelled as its name together
with the chunk list `loader.load_and_split(text_splitter)` produced for
it.  Non-PDF filenames are skipped; each chunk of a PDF becomes a
document whose metadata is replaced by the single title
filename_chunk_index, chunks enumerated per file from 0. -/
def add_pdf_documents (files : List (String × List (List Char))) :
    List Doc :=
  ((files.filter (fun f => strEndsWith f.1 ".pdf")).map (fun f =>
    (enumerateFrom 0 f.2).map (fun p =>
      { page_content := p.2,
        metadata := [("title", f.1 ++ "_chunk_" ++ toString p.1)] }))).flatten

/-- Modelled from the spec: the section 4.1 ChunkSplitter contract
(`split(text, chunkSize, overlap)`), needed because the splitter actually
used by `add_pdf_documents` (LangChain CharacterTextSplitter) is not part
of this repository.  Sliding window of width `c` advancing by `c - o`, so
consecutive segments share `o` characters; degenerate inputs (empty text,
or an overlap at least the chunk size, which the spec excludes by
requiring O < C) give an empty sequence. -/
def specSplit (text : List Char) (c o : Nat) : List (List Char) :=
  if h1 : text = [] then []
  else if h2 : c ≤ o then []
  else if h3 : text.length ≤ c then [text]
  else text.take c :: specSplit (text.drop (c - o)) c o
termination_by text.length
decreasing_by
  simp only [List.length_drop]
  omega

/-- An entry of the includedPaths and excludedPaths lists. -/
structure PathEntry where
  path : String
deriving DecidableEq

/-- An entry of the vectorIndexes list. -/
structure VectorIndex where
  path : String
  type : String
deriving DecidableEq

/-- The dictionary returned by `get_vector_indexing_policy`. -/
structure IndexingPolicy where
  indexingMode : String
  includedPaths : List PathEntry
  excludedPaths : List PathEntry
  vectorIndexes : List VectorIndex
deriving DecidableEq

/-- An entry of the vectorEmbeddings list. -/
structure VectorEmbedding where
  path : String
  dataType : String
  dimensions : Nat
  distanceFunction : String
deriving DecidableEq

/-- The dictionary returned by `get_vector_embedding_policy`. -/
structure EmbeddingPolicy where
  vectorEmbeddings : List VectorEmbedding
deriving DecidableEq

/-- Lines 147-158 `get_vector_indexing_policy`.  The loop body rebinds
`vectorIndexes` on every iteration to a fresh singleton list built from
index 0 of both input lists.  If the loop never runs (empty
embedding_type) the name `vectorIndexes` is unbound and line 157 raises
NameError; if `embedding_path` is empty, `embedding_path[0]` raises
IndexError.  Both failure modes are modelled as `none`: the loop is a
fold starting from the unbound state `none`, each iteration replacing the
state with the freshly built singleton (or failing on the index access). -/
def get_vector_indexing_policy (embedding_path embedding_type : List String) :
    Option IndexingPolicy :=
  let vectorIndexes : Option (List VectorIndex) :=
    (List.range embedding_type.length).foldl
      (fun _ _ =>
        match embedding_path.head?, embedding_type.head? with
        | some p, some t => some [{ path := p, type := t }]
        | _, _ => none)
      none
  match vectorIndexes with
  | none => none
  | some vi =>
      some { indexingMode := "consistent",
             includedPaths := [{ path := "/*" }],
             excludedPaths := [{ path := "/\"_etag\"/?" }],
             vectorIndexes := vi }

/-- Lines 160-173 `get_vector_embedding_policy`, with the same
last-iteration-wins loop over `distance_function` rebinding
`vectorEmbeddings`, every field read from index 0 of its list. -/
def get_vector_embedding_policy (embedding_path distance_function
    data_type : List String) (dimensions : List Nat) :
    Option EmbeddingPolicy :=
  let vectorEmbeddings : Option (List VectorEmbedding) :=
    (List.range distance_function.length).foldl
      (fun _ _ =>
        match embedding_path.head?, data_type.head?, dimensions.head?,
              distance_function.head? with
        | some p, some dt, some dim, some df =>
            some [{ path := p, dataType := dt, dimensions := dim,
                    distanceFunction := df }]
        | _, _, _, _ => none)
      none
  match vectorEmbeddings with
  | none => none
  | some ve => some { vectorEmbeddings := ve }

/-- Lines 213-216 of `attach_rag_tools_cosmosdb`: the indexing policy is
built from the singleton lists ["/embedding"] and [vector embedding type
from the environment]. -/
def attach_indexing_policy (embeddingType : String) : Option IndexingPolicy :=
  get_vector_indexing_policy ["/embedding"] [embeddingType]

/-- Lines 217-222 of `attach_rag_tools_cosmosdb`: the embedding policy is
built from the singleton lists ["/embedding"], ["cosine"], ["float32"]
and [1536]. -/
def attach_embedding_policy : Option EmbeddingPolicy :=
  get_vector_embedding_policy ["/embedding"] ["cosine"] ["float32"] [1536]

/-- Modelled from the spec: `AzureCosmosDBNoSqlVectorSearch.from_documents`
(lines 229-241) is LangChain library code outside this repository.  Per
spec sections 4.3 and 9 the reference behaviour is a naive append-only
upsert: every document is written as a new item under a freshly generated
id (uuid4), no id being derived from the document.  Fresh ids are
modelled by an id stream indexed by a running counter; the store is the
list of stored (id, content) items. -/
def from_documents_upsert (freshId : Nat → String) (next : Nat)
    (store : List (String × List Char)) (docs : List Doc) :
    List (String × List Char) × Nat :=
  (store ++ (enumerateFrom next docs).map
      (fun p => (freshId p.1, p.2.page_content)),
   next + docs.length)

/-- One ingestion run as `attach_rag_tools_cosmosdb` performs it
(lines 226-241): build the chunk documents, then hand all of them to
`from_documents`. -/
def ingestRun (freshId : Nat → String)
    (files : List (String × List (List Char)))
    (st : List (String × List Char) × Nat) :
    List (String × List Char) × Nat :=
  from_documents_upsert freshId st.2 st.1 (add_pdf_documents files)

lemma chunk_text_nil (c : Nat) : chunk_text [] c = [] := by
  rw [chunk_text]
  simp

lemma chunk_text_join (text : List Char) (c : Nat) :
    0 < c → (chunk_text text c).flatten = text := by
  induction text, c using chunk_text.induct with
  | case1 c => intro hc; simp [chunk_text_nil]
  | case2 text h => intro hc; omega
  | case3 text c h hzero ih =>
      intro hc
      rw [chunk_text]
      simp only [dif_neg h, dif_neg hzero]
      simp [ih hc]

lemma chunk_text_mem (text : List Char) (c : Nat) :
    0 < c → ∀ s ∈ chunk_text text c, s.length ≤ c ∧ s ≠ [] := by
  induction text, c using chunk_text.induct with
  | case1 c => intro hc; simp [chunk_text_nil]
  | case2 text h => intro hc; omega
  | case3 text c h hzero ih =>
      intro hc
      rw [chunk_text]
      simp only [dif_neg h, dif_neg hzero]
      intro s hs
      rcases List.mem_cons.mp hs with rfl | hs
      · refine ⟨by simp, ?_⟩
        simp [List.take_eq_nil_iff, h, hzero]
      · exact ih hc s hs

lemma chunk_text_length (text : List Char) (c : Nat) :
    0 < c → text ≠ [] →
    (chunk_text text c).length = (text.length + c - 1) / c := by
  induction text, c using chunk_text.induct with
  | case1 c => intro hc ht; exact absurd rfl ht
  | case2 text h => intro hc; omega
  | case3 text c h hzero ih =>
      intro hc ht
      rw [chunk_text]
      simp only [dif_neg h, dif_neg hzero, List.length_cons]
      have h1 : 0 < text.length := List.length_pos.mpr h
      by_cases hd : text.drop c = []
      · have hle : text.length ≤ c := by
          simpa using hd
        rw [hd, chunk_text_nil]
        simp only [List.length_nil]
        have hdiv : (text.length + c - 1) / c = 1 :=
          Nat.div_eq_of_lt_le (by omega) (by omega)
        omega
      · have hgt : c < text.length := by
          by_contra hcon
          exact hd (by simp; omega)
        rw [ih hc hd]
        simp only [List.length_drop]
        have e1 : text.length - c + c - 1 = text.length - 1 := by omega
        have e2 : text.length + c - 1 = (text.length - 1) + c := by omega
        rw [e1, e2, Nat.add_div_right _ hc]

lemma sentinelIfEmpty_cons_lbracket (t : List Char) :
    sentinelIfEmpty ('[' :: t) = '[' :: t := by
  have h2 : pyIsSpace ('[' :: t) = false := by
    simp [pyIsSpace, List.all_cons,
      show pyIsSpaceChar '[' = false from by decide]
  simp [sentinelIfEmpty, h2]

lemma sentinelIfEmpty_ne_nil (r : List Char) : sentinelIfEmpty r ≠ [] := by
  unfold sentinelIfEmpty
  by_cases h : (r.isEmpty || pyIsSpace r) = true
  · rw [if_pos h]
    decide
  · rw [if_neg h]
    simp only [Bool.or_eq_true, not_or, Bool.not_eq_true] at h
    exact List.isEmpty_eq_false.mp h.1

lemma searchResultStr_cons (d : Doc) (ds : List Doc) :
    ∃ t, searchResultStr (d :: ds) = '[' :: t :=
  ⟨_, rfl⟩

lemma searchToolPayload_of_ne_nil (results : List Doc) (h : results ≠ []) :
    searchToolPayload results = searchResultStr results := by
  obtain ⟨d, ds, rfl⟩ := List.exists_cons_of_ne_nil h
  obtain ⟨t, ht⟩ := searchResultStr_cons d ds
  rw [searchToolPayload, ht, sentinelIfEmpty_cons_lbracket]

lemma enumerateFrom_map (f : α → β) (k : Nat) (l : List α) :
    enumerateFrom k (l.map f) =
      (enumerateFrom k l).map (fun p => (p.1, f p.2)) := by
  induction l generalizing k with
  | nil => rfl
  | cons a l ih => simp [enumerateFrom, ih]

lemma enumerateFrom_getElem? (k i : Nat) (l : List α) :
    (enumerateFrom k l)[i]? = (l[i]?).map (fun a => (k + i, a)) := by
  induction l generalizing k i with
  | nil => simp [enumerateFrom]
  | cons a l ih =>
      cases i with
      | zero => simp [enumerateFrom]
      | succ j =>
          have e : k + (j + 1) = (k + 1) + j := by omega
          simp [enumerateFrom, ih, e]

lemma searchToolPayload_map_invariant (r1 r2 : List Doc)
    (h : r1.map Doc.page_content = r2.map Doc.page_content) :
    searchToolPayload r1 = searchToolPayload r2 := by
  have key : ∀ r : List Doc, searchResultStr r =
      ((enumerateFrom 0 (r.map Doc.page_content)).map
        (fun p => searchSegment p.1 p.2)).flatten := by
    intro r
    rw [enumerateFrom_map]
    simp only [searchResultStr, List.map_map]
    rfl
  unfold searchToolPayload
  rw [key r1, key r2, h]

lemma dropWhile_any (p : α → Bool) (l : List α)
    (h : l.any (fun a => !p a) = true) :
    (l.dropWhile p).any (fun a => !p a) = true ∧ l.dropWhile p ≠ [] := by
  induction l with
  | nil => simp at h
  | cons a l ih =>
      rw [List.dropWhile_cons]
      by_cases hp : p a = true
      · rw [if_pos hp]
        have h2 : l.any (fun a => !p a) = true := by
          simpa [List.any_cons, hp] using h
        exact ih h2
      · rw [if_neg hp]
        refine ⟨?_, by simp⟩
        simp [List.any_cons, hp]

lemma pyStrip_ne_nil (r : List Char)
    (h : r.any (fun ch => !pyIsSpaceChar ch) = true) :
    pyStrip r ≠ [] := by
  unfold pyStrip
  have h1 := dropWhile_any _ _ h
  have h2 : (r.dropWhile pyIsSpaceChar).reverse.any
      (fun ch => !pyIsSpaceChar ch) = true := by
    simpa [List.any_reverse] using h1.1
  have h3 := dropWhile_any _ _ h2
  simpa using h3.2

lemma groundingFlatten_shape (contents : List (List Char)) :
    contents ≠ [] →
    ∃ m, (contents.map groundingSegment).flatten =
      ('[' :: m) ++ "\n-----\n".data := by
  induction contents with
  | nil => intro h; exact absurd rfl h
  | cons c cs ih =>
      intro _
      cases cs with
      | nil =>
          refine ⟨c.take 200 ++ "...".data, ?_⟩
          show groundingSegment c ++ [] = _
          have hlit : "...".data ++ "\n-----\n".data = "...\n-----\n".data := rfl
          simp [groundingSegment, List.append_assoc, hlit]
      | cons c2 cs2 =>
          obtain ⟨m, hm⟩ := ih (by simp)
          refine ⟨(c.take 200 ++ "...\n-----\n".data) ++ '[' :: m, ?_⟩
          rw [List.map_cons, List.flatten_cons, hm]
          simp [groundingSegment, List.append_assoc]

lemma pyStrip_shape (m : List Char) :
    pyStrip (('[' :: m) ++ "\n-----\n".data) = ('[' :: m) ++ "\n-----".data := by
  have hbr : pyIsSpaceChar '[' = false := by decide
  have hstep1 : List.dropWhile pyIsSpaceChar (('[' :: m) ++ "\n-----\n".data)
      = ('[' :: m) ++ "\n-----\n".data := by
    rw [List.cons_append, List.dropWhile_cons, hbr]
    simp
  have hrev : (('[' :: m) ++ "\n-----\n".data).reverse
      = '\n' :: '-' :: '-' :: '-' :: '-' :: '-' :: '\n' :: ('[' :: m).reverse := by
    rw [List.reverse_append]
    rfl
  have hnl : pyIsSpaceChar '\n' = true := by decide
  have hdash : pyIsSpaceChar '-' = false := by decide
  have hstep2 : List.dropWhile pyIsSpaceChar
        ((('[' :: m) ++ "\n-----\n".data).reverse)
      = '-' :: '-' :: '-' :: '-' :: '-' :: '\n' :: ('[' :: m).reverse := by
    rw [hrev]
    simp [List.dropWhile_cons, hnl, hdash]
  unfold pyStrip
  rw [hstep1, hstep2]
  show (['-', '-', '-', '-', '-', '\n'] ++ ('[' :: m).reverse).reverse = _
  rw [List.reverse_append, List.reverse_reverse]
  rfl

lemma dropLast_shape (m : List Char) :
    ((('[' :: m) ++ "\n-----\n".data)).dropLast = ('[' :: m) ++ "\n-----".data := by
  have h : ('[' :: m) ++ "\n-----\n".data
      = (('[' :: m) ++ "\n-----".data) ++ ['\n'] := by
    rw [List.append_assoc]
    rfl
  rw [h, List.dropLast_concat]

/-- C1 (counterexample): the claim asserts the chunk splitter honours an
overlap parameter O for every 0 ≤ O < C, consecutive segments sharing
exactly O characters.  `chunk_text` takes no overlap argument and cuts
disjoint slices: on the text "abc" with chunk size C = 2 and overlap
O = 1 it returns segments "ab" and "c", whose boundary shares no
character, refuting the claimed sharing property at O = 1. -/
theorem chunk_text_overlap_counterexample :
    chunk_text ['a', 'b', 'c'] 2 = [['a', 'b'], ['c']] ∧
    adjacentShare 1 [['a', 'b'], ['c']] = false := by
  constructor
  · simp [chunk_text]
  · decide

/-- C1 (amended): `chunk_text` has no overlap parameter; it behaves as the
spec's `split` with overlap O = 0.  For chunk size C > 0: empty text gives
an empty sequence; non-empty text of length L gives exactly
ceil(L / C) = (L + C - 1) / C segments; every segment has length ≤ C and
is non-empty; and plain concatenation (overlap 0 removed) reconstructs
the original text exactly. -/
theorem chunk_text_zero_overlap_correct (text : List Char) (c : Nat)
    (hc : 0 < c) :
    (text = [] → chunk_text text c = []) ∧
    (text ≠ [] → (chunk_text text c).length = (text.length + c - 1) / c) ∧
    (∀ s ∈ chunk_text text c, s.length ≤ c ∧ s ≠ []) ∧
    (chunk_text text c).flatten = text := by
  refine ⟨?_, ?_, chunk_text_mem text c hc, chunk_text_join text c hc⟩
  · rintro rfl
    exact chunk_text_nil c
  · intro ht
    exact chunk_text_length text c hc ht

/-- C1 (witness): the amended theorem instantiated at the text "abcde"
and chunk size 2, giving ceil(5/2) = 3 segments. -/
theorem chunk_text_zero_overlap_correct_witness :
    0 < 2 ∧
    ((['a', 'b', 'c', 'd', 'e'] = ([] : List Char) →
        chunk_text ['a', 'b', 'c', 'd', 'e'] 2 = []) ∧
     (['a', 'b', 'c', 'd', 'e'] ≠ ([] : List Char) →
        (chunk_text ['a', 'b', 'c', 'd', 'e'] 2).length =
          (['a', 'b', 'c', 'd', 'e'].length + 2 - 1) / 2) ∧
     (∀ s ∈ chunk_text ['a', 'b', 'c', 'd', 'e'] 2, s.length ≤ 2 ∧ s ≠ []) ∧
     (chunk_text ['a', 'b', 'c', 'd', 'e'] 2).flatten =
        ['a', 'b', 'c', 'd', 'e']) :=
  ⟨by decide, chunk_text_zero_overlap_correct ['a', 'b', 'c', 'd', 'e'] 2 (by decide)⟩

lemma validSource_iff (s : List Char) :
    validSource s = true ↔
      (s ≠ [] ∧ ∀ ch ∈ s, allowedChar ch = true) ∨
      (∃ w, s = w ++ ['\n'] ∧ w ≠ [] ∧ ∀ ch ∈ w, allowedChar ch = true) := by
  unfold validSource matchesCore
  constructor
  · intro h
    rw [Bool.or_eq_true] at h
    rcases h with h | h
    · left
      rw [Bool.and_eq_true] at h
      exact ⟨List.isEmpty_eq_false.mp (by simpa using h.1),
             List.all_eq_true.mp h.2⟩
    · right
      rw [Bool.and_eq_true] at h
      obtain ⟨hl, hc⟩ := h
      have hlast : s.getLast? = some '\n' := by
        simpa using hl
      have hs : s ≠ [] := by
        intro he
        rw [he] at hlast
        simp at hlast
      rw [Bool.and_eq_true] at hc
      refine ⟨s.dropLast, ?_, ?_, ?_⟩
      · have hg : s.getLast hs = '\n' := by
          have := List.getLast?_eq_getLast s hs
          rw [this] at hlast
          exact Option.some_injective _ hlast
        rw [← hg]
        exact (List.dropLast_append_getLast hs).symm
      · exact List.isEmpty_eq_false.mp (by simpa using hc.1)
      · exact List.all_eq_true.mp hc.2
  · intro h
    rw [Bool.or_eq_true]
    rcases h with ⟨hne, hall⟩ | ⟨w, rfl, hw, hall⟩
    · left
      rw [Bool.and_eq_true]
      exact ⟨by simpa using hne, List.all_eq_true.mpr hall⟩
    · right
      rw [Bool.and_eq_true]
      constructor
      · simp [List.getLast?_concat]
      · rw [List.dropLast_concat, Bool.and_eq_true]
        exact ⟨by simpa using hw, List.all_eq_true.mpr hall⟩

/-- C2: when a search or report_grounding call produces no formatted
result text — the search results list is empty, or no valid source
produced any match — the returned payload is exactly the literal sentinel
"1"; moreover neither tool ever returns an empty payload. -/
theorem empty_result_sentinel :
    (∀ results : List Doc,
        results = [] → searchToolPayload results = "1".data) ∧
    (∀ (search : List Char → List Doc) (sources : List (List Char)),
        groundingContents search sources = [] →
        reportGroundingPayload search sources = "1".data) ∧
    (∀ results : List Doc, searchToolPayload results ≠ []) ∧
    (∀ (search : List Char → List Doc) (sources : List (List Char)),
        reportGroundingPayload search sources ≠ []) := by
  refine ⟨?_, ?_, ?_, ?_⟩
  · intro results h
    subst h
    decide
  · intro search sources h
    unfold reportGroundingPayload
    rw [h]
    decide
  · intro results
    exact sentinelIfEmpty_ne_nil _
  · intro search sources
    unfold reportGroundingPayload
    by_cases hcond :
        ((((groundingContents search sources).map groundingSegment).flatten).isEmpty
          || pyIsSpace (((groundingContents search sources).map groundingSegment).flatten)) = true
    · unfold sentinelIfEmpty
      rw [if_pos hcond]
      decide
    · unfold sentinelIfEmpty
      rw [if_neg hcond]
      apply pyStrip_ne_nil
      simp only [Bool.or_eq_true, not_or, Bool.not_eq_true] at hcond
      obtain ⟨he, hsp⟩ := hcond
      have hall :
          (((groundingContents search sources).map groundingSegment).flatten).all
            pyIsSpaceChar = false := by
        unfold pyIsSpace at hsp
        simpa [he] using hsp
      rw [List.any_eq_true]
      by_contra hno
      push_neg at hno
      have hat :
          (((groundingContents search sources).map groundingSegment).flatten).all
            pyIsSpaceChar = true := by
        rw [List.all_eq_true]
        intro x hx
        simpa using hno x hx
      rw [hat] at hall
      simp at hall

/-- C2 (witness): the sentinel theorem instantiated at an empty result
list and at a store that returns no documents for the single valid
source "doc_0". -/
theorem empty_result_sentinel_witness :
    (([] : List Doc) = [] → searchToolPayload [] = "1".data) ∧
    (groundingContents (fun _ => []) ["doc_0".data] = [] →
      reportGroundingPayload (fun _ => []) ["doc_0".data] = "1".data) ∧
    searchToolPayload [] ≠ [] ∧
    reportGroundingPayload (fun _ => []) ["doc_0".data] ≠ [] :=
  ⟨empty_result_sentinel.1 [],
   empty_result_sentinel.2.1 (fun _ => []) ["doc_0".data],
   empty_result_sentinel.2.2.1 [],
   empty_result_sentinel.2.2.2 (fun _ => []) ["doc_0".data]⟩

/-- C3 (counterexample): the claim says only strings matching the
allow-list pattern over the WHOLE string are retained and every other
string is dropped.  The string consisting of doc_0 followed by a newline
contains the newline, which the character class rejects, yet Python
re.match keeps it because the dollar anchor also matches just before a
trailing newline — so a string that does not match over the whole string
survives sanitization. -/
theorem valid_source_newline_counterexample :
    ["doc_0\n".data].filter validSource = ["doc_0\n".data] ∧
    '\n' ∈ "doc_0\n".data ∧ allowedChar '\n' = false := by
  decide

/-- C3 (amended): report_grounding retains exactly those source strings
that either consist wholly of characters in [A-Za-z0-9_=-] (non-empty),
or are such a non-empty run followed by one trailing newline (accepted
because the un-multiline dollar anchor of Python re also matches just
before a final newline); every other string is silently dropped.  In
particular, of [doc_0, doc_0; rm -rf] only doc_0 survives. -/
theorem valid_source_filter_correct :
    (∀ (sources : List (List Char)) (s : List Char),
        s ∈ sources.filter validSource ↔
          s ∈ sources ∧
            ((s ≠ [] ∧ ∀ ch ∈ s, allowedChar ch = true) ∨
             (∃ w, s = w ++ ['\n'] ∧ w ≠ [] ∧
                ∀ ch ∈ w, allowedChar ch = true))) ∧
    ["doc_0".data, "doc_0; rm -rf".data].filter validSource =
      ["doc_0".data] := by
  constructor
  · intro sources s
    rw [List.mem_filter, validSource_iff]
  · decide

/-- C3 (witness): the filter characterization instantiated at the
claim's own example input and its rejected entry. -/
theorem valid_source_filter_correct_witness :
    ("doc_0; rm -rf".data ∈
        ["doc_0".data, "doc_0; rm -rf".data].filter validSource ↔
      "doc_0; rm -rf".data ∈ ["doc_0".data, "doc_0; rm -rf".data] ∧
        (("doc_0; rm -rf".data ≠ [] ∧
            ∀ ch ∈ "doc_0; rm -rf".data, allowedChar ch = true) ∨
         (∃ w, "doc_0; rm -rf".data = w ++ ['\n'] ∧ w ≠ [] ∧
            ∀ ch ∈ w, allowedChar ch = true))) :=
  valid_source_filter_correct.1 ["doc_0".data, "doc_0; rm -rf".data]
    "doc_0; rm -rf".data

/-- C4: on a non-empty result list the search payload is exactly the
concatenation, in rank order i = 0, 1, 2, ..., of the segments
"[doc_i]: Content: " followed by the content truncated to 2000
characters and a "\n-----\n" trailer; each truncated content has length
at most 2000, and the payload depends only on the page contents in rank
order — never on the stored sourceTitle metadata. -/
theorem search_format_correct (results : List Doc) (h : results ≠ []) :
    searchToolPayload results =
      ((enumerateFrom 0 results).map (fun p =>
        "[doc_".data ++ (toString p.1).data ++ "]: Content: ".data ++
          p.2.page_content.take 2000 ++ "\n-----\n".data)).flatten ∧
    (∀ p ∈ enumerateFrom 0 results,
        (p.2.page_content.take 2000).length ≤ 2000) ∧
    (∀ results2 : List Doc,
        results.map Doc.page_content = results2.map Doc.page_content →
        searchToolPayload results = searchToolPayload results2) := by
  refine ⟨?_, ?_, fun r2 hmap => searchToolPayload_map_invariant results r2 hmap⟩
  · rw [searchToolPayload_of_ne_nil results h]
    rfl
  · intro p _
    simp [List.length_take]

/-- C4 (witness): the formatting theorem instantiated at a single result
document whose title differs from its rank label. -/
theorem search_format_correct_witness :
    ([({ page_content := "hello".data,
         metadata := [("title", "manual.pdf_chunk_7")] } : Doc)] ≠ []) ∧
    (searchToolPayload
        [{ page_content := "hello".data,
           metadata := [("title", "manual.pdf_chunk_7")] }] =
      ((enumerateFrom 0
          [({ page_content := "hello".data,
              metadata := [("title", "manual.pdf_chunk_7")] } : Doc)]).map
        (fun p =>
          "[doc_".data ++ (toString p.1).data ++ "]: Content: ".data ++
            p.2.page_content.take 2000 ++ "\n-----\n".data)).flatten ∧
    (∀ p ∈ enumerateFrom 0
        [({ page_content := "hello".data,
            metadata := [("title", "manual.pdf_chunk_7")] } : Doc)],
        (p.2.page_content.take 2000).length ≤ 2000) ∧
    (∀ results2 : List Doc,
        [({ page_content := "hello".data,
            metadata := [("title", "manual.pdf_chunk_7")] } : Doc)].map
            Doc.page_content = results2.map Doc.page_content →
        searchToolPayload
            [{ page_content := "hello".data,
               metadata := [("title", "manual.pdf_chunk_7")] }] =
          searchToolPayload results2)) :=
  ⟨by decide,
   search_format_correct
     [{ page_content := "hello".data,
        metadata := [("title", "manual.pdf_chunk_7")] }] (by decide)⟩

/-- C5 (counterexample): the claim says the grounding payload is exactly
the concatenation of the formatted segments, but line 134 returns
result_str.strip(), which removes the final newline: for one matched
passage "a" the concatenation ends with a newline while the returned
payload does not. -/
theorem grounding_strip_counterexample :
    reportGroundingPayload
        (fun _ => [{ page_content := ['a'], metadata := [] }]) [['s']] =
      "[a...\n-----".data ∧
    ((groundingContents
        (fun _ => [{ page_content := ['a'], metadata := [] }]) [['s']]).map
      groundingSegment).flatten = "[a...\n-----\n".data ∧
    ("[a...\n-----".data : List Char) ≠ "[a...\n-----\n".data := by
  decide

/-- C5 (amended): each matched passage is truncated to at most 200
characters and formatted as an opening bracket, the snippet, an ellipsis
and a "\n-----\n" trailer, concatenated in the input order of the
surviving sources; the returned payload is that concatenation with its
final newline removed (the effect of the final Python strip(), since the
concatenation starts with a non-whitespace bracket and ends with exactly
one trailing whitespace character). -/
theorem grounding_format_strip_correct (search : List Char → List Doc)
    (sources : List (List Char))
    (h : groundingContents search sources ≠ []) :
    reportGroundingPayload search sources =
      (((groundingContents search sources).map
          groundingSegment).flatten).dropLast ∧
    (∀ c ∈ groundingContents search sources, (c.take 200).length ≤ 200) := by
  obtain ⟨m, hm⟩ := groundingFlatten_shape _ h
  constructor
  · unfold reportGroundingPayload
    rw [hm, List.cons_append, sentinelIfEmpty_cons_lbracket,
        ← List.cons_append, pyStrip_shape, dropLast_shape]
  · intro c _
    simp [List.length_take]

/-- C5 (witness): the amended grounding theorem instantiated at a store
returning one passage "a" for the single valid source "s". -/
theorem grounding_format_strip_correct_witness :
    (groundingContents
        (fun _ => [{ page_content := ['a'], metadata := [] }]) [['s']] ≠ []) ∧
    (reportGroundingPayload
        (fun _ => [{ page_content := ['a'], metadata := [] }]) [['s']] =
      (((groundingContents
          (fun _ => [{ page_content := ['a'], metadata := [] }]) [['s']]).map
            groundingSegment).flatten).dropLast ∧
    (∀ c ∈ groundingContents
        (fun _ => [{ page_content := ['a'], metadata := [] }]) [['s']],
        (c.take 200).length ≤ 200)) :=
  ⟨by decide,
   grounding_format_strip_correct
     (fun _ => [{ page_content := ['a'], metadata := [] }]) [['s']]
     (by decide)⟩

lemma specSplit_2500 :
    specSplit (List.replicate 2500 'a') 1000 250 =
      [List.replicate 1000 'a', List.replicate 1000 'a',
       List.replicate 1000 'a'] := by
  have e1 : specSplit (List.replicate 2500 'a') 1000 250
      = List.replicate 1000 'a' ::
          specSplit (List.replicate 1750 'a') 1000 250 := by
    rw [specSplit, dif_neg (by simp), dif_neg (by norm_num),
        dif_neg (by norm_num [List.length_replicate]),
        List.take_replicate, List.drop_replicate]
    norm_num
  have e2 : specSplit (List.replicate 1750 'a') 1000 250
      = List.replicate 1000 'a' ::
          specSplit (List.replicate 1000 'a') 1000 250 := by
    rw [specSplit, dif_neg (by simp), dif_neg (by norm_num),
        dif_neg (by norm_num [List.length_replicate]),
        List.take_replicate, List.drop_replicate]
    norm_num
  have e3 : specSplit (List.replicate 1000 'a') 1000 250
      = [List.replicate 1000 'a'] := by
    rw [specSplit, dif_neg (by simp), dif_neg (by norm_num),
        dif_pos (by norm_num [List.length_replicate])]
  rw [e1, e2, e3]

lemma enumerateFrom_length (k : Nat) (l : List α) :
    (enumerateFrom k l).length = l.length := by
  induction l generalizing k with
  | nil => rfl
  | cons a l ih => simp [enumerateFrom, ih]

lemma add_pdf_documents_append (l1 l2 : List (String × List (List Char))) :
    add_pdf_documents (l1 ++ l2) =
      add_pdf_documents l1 ++ add_pdf_documents l2 := by
  unfold add_pdf_documents
  rw [List.filter_append, List.map_append, List.flatten_append]

lemma add_pdf_documents_length (files : List (String × List (List Char))) :
    (add_pdf_documents files).length =
      ((files.filter (fun f => strEndsWith f.1 ".pdf")).map
        (fun f => f.2.length)).sum := by
  unfold add_pdf_documents
  rw [List.length_flatten, List.map_map]
  congr 1
  apply List.map_congr_left
  intro f _
  simp [enumerateFrom_length]

lemma add_pdf_documents_singleton_getElem (name : String)
    (chunks : List (List Char)) (i : Nat) (hi : i < chunks.length)
    (hpdf : strEndsWith name ".pdf" = true) :
    (add_pdf_documents [(name, chunks)])[i]? =
      some { page_content := chunks.get ⟨i, hi⟩,
             metadata := [("title", name ++ "_chunk_" ++ toString i)] } := by
  unfold add_pdf_documents
  rw [show List.filter (fun f => strEndsWith f.1 ".pdf") [(name, chunks)] =
      [(name, chunks)] from by simp [List.filter, hpdf]]
  simp only [List.map_cons, List.map_nil, List.flatten_cons,
    List.flatten_nil, List.append_nil]
  rw [List.getElem?_map, enumerateFrom_getElem?]
  rw [show chunks[i]? = some (chunks.get ⟨i, hi⟩) from by
    rw [List.getElem?_eq_getElem hi]
    rfl]
  simp

/-- C6: in an arbitrary multi-file ingest, the documents the ingestor
produces are, per PDF file, titled filename_chunk_index with the index
counted from 0 within that file alone: the total document count is the
sum of the per-PDF chunk counts, and for a file sitting at any position
in the ingest list, the document at global offset (chunks of the
preceding PDF files) + i is the i-th chunk of that file titled
name_chunk_i — the counter restarts at 0 for every file.  Instantiated
on the spec splitter, a 2500-character manual.pdf split with chunk size
1000 and overlap 250 yields exactly the three titles
manual.pdf_chunk_0 .. manual.pdf_chunk_2. -/
theorem source_title_formula :
    (∀ files : List (String × List (List Char)),
        (add_pdf_documents files).length =
          ((files.filter (fun f => strEndsWith f.1 ".pdf")).map
            (fun f => f.2.length)).sum) ∧
    (∀ (pre post : List (String × List (List Char))) (name : String)
        (chunks : List (List Char)) (i : Nat) (hi : i < chunks.length),
        strEndsWith name ".pdf" = true →
        (add_pdf_documents (pre ++ (name, chunks) :: post))[
            ((pre.filter (fun f => strEndsWith f.1 ".pdf")).map
              (fun f => f.2.length)).sum + i]? =
          some { page_content := chunks.get ⟨i, hi⟩,
                 metadata := [("title", name ++ "_chunk_" ++ toString i)] }) ∧
    (add_pdf_documents
        [("manual.pdf", specSplit (List.replicate 2500 'a') 1000 250)]).map
      Doc.metadata =
      [[("title", "manual.pdf_chunk_0")],
       [("title", "manual.pdf_chunk_1")],
       [("title", "manual.pdf_chunk_2")]] := by
  refine ⟨add_pdf_documents_length, ?_, ?_⟩
  · intro pre post name chunks i hi hpdf
    rw [show pre ++ (name, chunks) :: post =
        (pre ++ [(name, chunks)]) ++ post from by simp]
    rw [add_pdf_documents_append, add_pdf_documents_append]
    rw [List.append_assoc]
    rw [show ((pre.filter (fun f => strEndsWith f.1 ".pdf")).map
          (fun f => f.2.length)).sum + i =
        (add_pdf_documents pre).length + i from by
      rw [add_pdf_documents_length]]
    rw [List.getElem?_append_right (Nat.le_add_right _ _),
        Nat.add_sub_cancel_left]
    have hidoc : i < (add_pdf_documents [(name, chunks)]).length := by
      rw [add_pdf_documents_length]
      simpa [List.filter, hpdf] using hi
    rw [List.getElem?_append_left hidoc]
    exact add_pdf_documents_singleton_getElem name chunks i hi hpdf
  · rw [specSplit_2500]
    decide

/-- C6 (witness): the positional title theorem instantiated in the
middle of a three-PDF ingest: manual.pdf is preceded by a two-chunk
a.pdf and followed by a skipped notes.txt and a b.pdf, and its chunk 2
sits at global offset 2 + 2 = 4 yet is titled manual.pdf_chunk_2 — the
index restarts per file. -/
theorem source_title_formula_witness :
    (2 < ([['a'], ['b'], ['c']] : List (List Char)).length) ∧
    (strEndsWith "manual.pdf" ".pdf" = true) ∧
    (add_pdf_documents ([("a.pdf", [['x'], ['y']])] ++
        ("manual.pdf", [['a'], ['b'], ['c']]) ::
          [("notes.txt", [['z']]), ("b.pdf", [['w']])]))[
        ((([("a.pdf", [['x'], ['y']])] :
            List (String × List (List Char))).filter
          (fun f => strEndsWith f.1 ".pdf")).map
            (fun f => f.2.length)).sum + 2]? =
      some { page_content := [['a'], ['b'], ['c']].get ⟨2, by decide⟩,
             metadata := [("title", "manual.pdf" ++ "_chunk_" ++ toString 2)] } :=
  ⟨by decide, by decide,
   source_title_formula.2.1 [("a.pdf", [['x'], ['y']])]
     [("notes.txt", [['z']]), ("b.pdf", [['w']])] "manual.pdf"
     [['a'], ['b'], ['c']] 2 (by decide) (by decide)⟩

/-- C7 (code-bug evidence): the ingestion path assigns no ids of its own —
`from_documents` writes every chunk under a fresh generated id, so
re-running ingestion on the unchanged single file a.pdf duplicates its
chunk instead of overwriting: the store holds one item after the first
run and two items (under distinct ids) after the second. -/
theorem reingest_not_idempotent :
    (ingestRun (fun n => toString n) [("a.pdf", [['x']])] ([], 0)).1 =
      [("0", ['x'])] ∧
    (ingestRun (fun n => toString n) [("a.pdf", [['x']])]
        (ingestRun (fun n => toString n) [("a.pdf", [['x']])] ([], 0))).1 =
      [("0", ['x']), ("1", ['x'])] ∧
    [(("0" : String), (['x'] : List Char))] ≠ [("0", ['x']), ("1", ['x'])] := by
  decide

lemma foldl_ignore (l : List α) (v a : β) :
    l.foldl (fun _ _ => v) a = if l.isEmpty then a else v := by
  induction l generalizing a with
  | nil => rfl
  | cons x xs ih =>
      rw [List.foldl_cons, ih]
      by_cases hxs : xs.isEmpty <;> simp [hxs]

/-- C8: for non-empty inputs both policy builders return a policy whose
vector list is a single element built solely from index 0 of each input
list, however many entries the inputs contain. -/
theorem policy_builders_use_index_zero :
    (∀ (embedding_path embedding_type : List String) (p t : String),
        embedding_path.head? = some p → embedding_type.head? = some t →
        get_vector_indexing_policy embedding_path embedding_type =
          some { indexingMode := "consistent",
                 includedPaths := [{ path := "/*" }],
                 excludedPaths := [{ path := "/\"_etag\"/?" }],
                 vectorIndexes := [{ path := p, type := t }] }) ∧
    (∀ (embedding_path distance_function data_type : List String)
        (dimensions : List Nat) (p df dt : String) (dim : Nat),
        embedding_path.head? = some p → distance_function.head? = some df →
        data_type.head? = some dt → dimensions.head? = some dim →
        get_vector_embedding_policy embedding_path distance_function
            data_type dimensions =
          some { vectorEmbeddings :=
                  [{ path := p, dataType := dt, dimensions := dim,
                     distanceFunction := df }] }) := by
  constructor
  · intro ep et p t hp ht
    have hne : (List.range et.length).isEmpty = false := by
      cases et with
      | nil => simp at ht
      | cons a l => simp [List.range_eq_nil]
    simp only [get_vector_indexing_policy]
    rw [foldl_ignore]
    simp [hne, hp, ht]
  · intro ep df dt dims p d0 t0 n0 hp hd ht hn
    have hne : (List.range df.length).isEmpty = false := by
      cases df with
      | nil => simp at hd
      | cons a l => simp [List.range_eq_nil]
    simp only [get_vector_embedding_policy]
    rw [foldl_ignore]
    simp [hne, hp, hd, ht, hn]

/-- C8 (witness): the index-zero theorem instantiated at multi-element
input lists, showing every entry past index 0 is ignored. -/
theorem policy_builders_use_index_zero_witness :
    get_vector_indexing_policy ["/embedding", "/other"]
        ["diskANN", "flat", "quantizedFlat"] =
      some { indexingMode := "consistent",
             includedPaths := [{ path := "/*" }],
             excludedPaths := [{ path := "/\"_etag\"/?" }],
             vectorIndexes := [{ path := "/embedding", type := "diskANN" }] } ∧
    get_vector_embedding_policy ["/embedding", "/e2"] ["cosine", "euclidean"]
        ["float32", "float64"] [1536, 768] =
      some { vectorEmbeddings :=
              [{ path := "/embedding", dataType := "float32",
                 dimensions := 1536, distanceFunction := "cosine" }] } :=
  ⟨policy_builders_use_index_zero.1 _ _ _ _ rfl rfl,
   policy_builders_use_index_zero.2 _ _ _ _ _ _ _ _ rfl rfl rfl rfl⟩

/-- C9 (counterexample): the excluded path the code writes into the
indexing policy is the Cosmos DB literal /"_etag"/? — with double quotes
around _etag (line 156) — not the /_etag/? the claim states. -/
theorem attach_policy_etag_counterexample :
    (attach_indexing_policy "diskANN").map
        (fun pol => pol.excludedPaths) =
      some [{ path := "/\"_etag\"/?" }] ∧
    ({ path := "/\"_etag\"/?" } : PathEntry) ≠ { path := "/_etag/?" } := by
  decide

/-- C9 (amended): the policies built at attach time have exactly the
configured shape — indexingMode consistent, includedPaths [/*],
excludedPaths [/"_etag"/?] (with literal double quotes around _etag),
one vector index at /embedding typed by the configured environment
value; and the embedding policy has path /embedding, dataType float32,
dimensions 1536, distanceFunction cosine. -/
theorem attach_policies_shape (embeddingType : String) :
    attach_indexing_policy embeddingType =
      some { indexingMode := "consistent",
             includedPaths := [{ path := "/*" }],
             excludedPaths := [{ path := "/\"_etag\"/?" }],
             vectorIndexes := [{ path := "/embedding",
                                 type := embeddingType }] } ∧
    attach_embedding_policy =
      some { vectorEmbeddings :=
              [{ path := "/embedding", dataType := "float32",
                 dimensions := 1536, distanceFunction := "cosine" }] } :=
  ⟨rfl, rfl⟩

/-- C10: with an empty embedding_type (resp. distance_function) list the
loop body never runs, the policy name is never bound and the function
fails (Python NameError, modelled as none); when every input list is
non-empty both builders succeed, so non-emptiness of those lists is
exactly the totality precondition. -/
theorem policy_builders_empty_input_error :
    (∀ embedding_path : List String,
        get_vector_indexing_policy embedding_path [] = none) ∧
    (∀ (embedding_path data_type : List String) (dimensions : List Nat),
        get_vector_embedding_policy embedding_path [] data_type
          dimensions = none) ∧
    (∀ embedding_path embedding_type : List String,
        embedding_path ≠ [] → embedding_type ≠ [] →
        (get_vector_indexing_policy embedding_path
            embedding_type).isSome = true) ∧
    (∀ (embedding_path distance_function data_type : List String)
        (dimensions : List Nat),
        embedding_path ≠ [] → distance_function ≠ [] → data_type ≠ [] →
        dimensions ≠ [] →
        (get_vector_embedding_policy embedding_path distance_function
            data_type dimensions).isSome = true) := by
  refine ⟨fun ep => rfl, fun ep dt dims => rfl, ?_, ?_⟩
  · intro ep et hp ht
    obtain ⟨p, ep2, rfl⟩ := List.exists_cons_of_ne_nil hp
    obtain ⟨t, et2, rfl⟩ := List.exists_cons_of_ne_nil ht
    simp only [get_vector_indexing_policy]
    rw [foldl_ignore]
    simp [List.range_eq_nil]
  · intro ep df dt dims hp hd ht hn
    obtain ⟨p, ep2, rfl⟩ := List.exists_cons_of_ne_nil hp
    obtain ⟨d0, df2, rfl⟩ := List.exists_cons_of_ne_nil hd
    obtain ⟨t0, dt2, rfl⟩ := List.exists_cons_of_ne_nil ht
    obtain ⟨n0, dims2, rfl⟩ := List.exists_cons_of_ne_nil hn
    simp only [get_vector_embedding_policy]
    rw [foldl_ignore]
    simp [List.range_eq_nil]

/-- C10 (witness): the totality theorem instantiated at the attach-time
shapes of the input lists. -/
theorem policy_builders_empty_input_error_witness :
    get_vector_indexing_policy ["/embedding"] [] = none ∧
    get_vector_embedding_policy ["/embedding"] [] ["float32"] [1536] = none ∧
    (["/embedding"] : List String) ≠ [] ∧
    (["diskANN"] : List String) ≠ [] ∧
    (get_vector_indexing_policy ["/embedding"] ["diskANN"]).isSome = true ∧
    (get_vector_embedding_policy ["/embedding"] ["cosine"] ["float32"]
        [1536]).isSome = true :=
  ⟨policy_builders_empty_input_error.1 _,
   policy_builders_empty_input_error.2.1 _ _ _,
   by decide, by decide,
   policy_builders_empty_input_error.2.2.1 _ _ (by decide) (by decide),
   policy_builders_empty_input_error.2.2.2 _ _ _ _ (by decide) (by decide)
     (by decide) (by decide)⟩

end RagTools
